import Mathlib

/-! Session gate and API client of miniflux.

A shallow embedding of

* `server/middleware/session.go` (`SessionMiddleware.Handler`, `isPublicRoute`,
  `getSessionFromCookie`), and
* `vendor/github.com/miniflux/miniflux-go/request.go` (`request.execute` and its helpers),

followed by the properties proved about them.

Conventions of the embedding.

* Go `string` is Lean `String`; slicing by byte index is slicing of the character list, which
  agrees with Go on the only slice the code takes (dropping a final `/`, a one-byte character).
* Go `error` values are `GoError`: an error allocated by this package (`errors.New`,
  `fmt.Errorf`) is `GoError.pkg` with its text, an error handed back by a library the code calls
  (`net/url`, `net/http`, `encoding/json`) is `GoError.foreign`.
* Side effects of the HTTP handler (log lines, the call of the next handler, the redirect
  written to the response) are recorded in order as a list of `Effect`.
* A Go run-time panic is an explicit outcome (`Effect.panic`, `Outcome.panicked`).
* Collaborators whose code is outside the two files (session store, router, URL parser,
  HTTP transport, JSON codec) are parameters.
-/

namespace Miniflux

/-! ## Errors -/

/-- An error value handed back by a library (`net/url`, `net/http`, `encoding/json`,
`database/sql`); `detail` is what its `Error()` method prints. -/
structure ForeignError where
  detail : String
  deriving DecidableEq, Repr

/-- Go `error` values seen by the two files. -/
inductive GoError where
  /-- an `*errors.errorString` allocated in package `miniflux` with the given text -/
  | pkg (text : String)
  /-- an error allocated by a library the code calls -/
  | foreign (e : ForeignError)
  deriving DecidableEq, Repr

/-- The `Error()` method. -/
def GoError.Error : GoError → String
  | .pkg text => text
  | .foreign e => e.detail

/-! ## `server/middleware/session.go` -/

namespace Middleware

/-- Modelled from the spec: `model.Session` (package `model` is outside the two files); the
spec's data model gives it the token and the owning user's id. -/
structure Session where
  UserID : Int
  Token : String
  deriving DecidableEq, Repr

/-- A value stored in a request context (`interface{}`), as far as the gate stores any. -/
inductive CtxValue where
  | int64 (v : Int)
  | bool (b : Bool)
  | str (s : String)
  deriving DecidableEq, Repr

/-- A `context.Context` as the chain of `WithValue` pairs, newest first. -/
abbrev Context := List (String × CtxValue)

/-- Go `context.WithValue(ctx, key, val)`. -/
def Context.WithValue (ctx : Context) (key : String) (val : CtxValue) : Context :=
  (key, val) :: ctx

/-- Go `ctx.Value(key)`: the newest binding of `key`, `none` for Go's `nil`. -/
def Context.Value (ctx : Context) (key : String) : Option CtxValue :=
  (ctx.find? (fun kv => kv.1 == key)).map Prod.snd

/-- Go `http.Cookie`, the two fields the gate can see. -/
structure Cookie where
  Name : String
  Value : String
  deriving DecidableEq, Repr

/-- Go `mux.Route`, the one field the gate reads. -/
structure Route where
  name : String
  deriving DecidableEq, Repr

/-- Go `Route.GetName`. -/
def Route.GetName (route : Route) : String := route.name

/-- Go `http.Request`, the parts the gate reads or writes: the cookies sent, the request context
and the route gorilla/mux matched (`none` when `mux.CurrentRoute` gives `nil`). -/
structure Request where
  cookies : List Cookie
  ctx : Context
  route : Option Route
  deriving DecidableEq, Repr

/-- Go `r.Cookie(name)`: the first cookie of that name, `none` for `http.ErrNoCookie`. -/
def Request.Cookie (r : Request) (name : String) : Option Cookie :=
  r.cookies.find? (fun c => c.Name == name)

/-- Go `r.Context()`. -/
def Request.Context (r : Request) : Middleware.Context := r.ctx

/-- Go `r.WithContext(ctx)`. -/
def Request.WithContext (r : Request) (ctx : Middleware.Context) : Request :=
  { r with ctx := ctx }

/-- Go `mux.CurrentRoute(r)`. -/
def CurrentRoute (r : Request) : Option Route := r.route

/-- Go `storage.Storage`, the one method the gate calls: `GetSessionByToken(token)` returns the
Go pair `(*model.Session, error)`, `none` standing for `nil` in either place. -/
structure Storage where
  GetSessionByToken : String → Option Session × Option GoError

/-- Go `mux.Router` as `route.GetRoute(router, name)` sees it: the URL built for a route name. -/
structure Router where
  GetRoute : String → String

/-- Go `SessionMiddleware`. -/
structure SessionMiddleware where
  store : Storage
  router : Router

/-- One argument of a `log.Println` call. -/
inductive LogArg where
  | text (s : String)
  | session (s : Session)
  | error (e : GoError)
  deriving DecidableEq, Repr

/-- Go `http.StatusFound`. -/
def StatusFound : Nat := 302

/-- What the handler does, in order. -/
inductive Effect where
  /-- Go `log.Println(args...)` -/
  | log (args : List LogArg)
  /-- Go `next.ServeHTTP(w, r)` -/
  | serveHTTP (r : Request)
  /-- Go `http.Redirect(w, r, url, code)` -/
  | redirect (url : String) (code : Nat)
  /-- a run-time panic (nil pointer dereference), ending the handler -/
  | panic
  deriving DecidableEq, Repr

/-- Go `SessionMiddleware.getSessionFromCookie`: the session, or `nil`, and the lines logged. -/
def SessionMiddleware.getSessionFromCookie (s : SessionMiddleware) (r : Request) :
    Option Session × List Effect :=
  match r.Cookie "sessionID" with
  | none => (none, [])
  | some sessionCookie =>
    match s.store.GetSessionByToken sessionCookie.Value with
    | (_, some err) => (none, [Effect.log [LogArg.error err]])
    | (session, none) => (session, [])

/-- Go `SessionMiddleware.isPublicRoute`; `none` is the panic of calling `GetName` on the `nil`
route. -/
def SessionMiddleware.isPublicRoute (_s : SessionMiddleware) (r : Request) : Option Bool :=
  match CurrentRoute r with
  | none => none
  | some route =>
    match route.GetName with
    | "login" | "checkLogin" | "stylesheet" | "javascript" => some true
    | _ => some false

/-- Go `SessionMiddleware.Handler(next)` applied to a request: the effects of the returned
handler, `Effect.serveHTTP` standing for the call of `next`. -/
def SessionMiddleware.Handler (s : SessionMiddleware) (r : Request) : List Effect :=
  let (session, logged) := s.getSessionFromCookie r
  match session with
  | none =>
    logged ++ [Effect.log [LogArg.text "[Middleware:Session] Session not found"]] ++
      (match s.isPublicRoute r with
       | none => [Effect.panic]
       | some true => [Effect.serveHTTP r]
       | some false => [Effect.redirect (s.router.GetRoute "login") StatusFound])
  | some session =>
    let ctx := r.Context
    let ctx := ctx.WithValue "UserId" (CtxValue.int64 session.UserID)
    let ctx := ctx.WithValue "IsAuthenticated" (CtxValue.bool true)
    logged ++ [Effect.log [LogArg.text "[Middleware:Session]", LogArg.session session],
      Effect.serveHTTP (r.WithContext ctx)]

/-- The effects a client or the downstream handler can observe: everything but log lines. -/
def clientEffects (t : List Effect) : List Effect :=
  t.filter (fun e => match e with
    | Effect.log _ => false
    | _ => true)

/-- The requests passed to the downstream handler, in order. -/
def served : List Effect → List Request
  | [] => []
  | Effect.serveHTTP r :: t => r :: served t
  | _ :: t => served t

/-- The redirects written, in order. -/
def redirects : List Effect → List (String × Nat)
  | [] => []
  | Effect.redirect url code :: t => (url, code) :: redirects t
  | _ :: t => redirects t

/-- The route names `isPublicRoute` lists. -/
def publicRouteNames : List String := ["login", "checkLogin", "stylesheet", "javascript"]

/-- The request as sent without any cookie of the given name. -/
def Request.withoutCookie (r : Request) (name : String) : Request :=
  { r with cookies := r.cookies.filter (fun c => !(c.Name == name)) }

end Middleware

/-! ## `vendor/github.com/miniflux/miniflux-go/request.go` -/

namespace Client

/-- Const `userAgent`. -/
def userAgent : String := "Miniflux Client Library <https://github.com/miniflux/miniflux-go>"

/-- Const `defaultTimeout`, in seconds. -/
def defaultTimeout : Nat := 80

/-- Var `ErrNotAuthorized`. -/
def ErrNotAuthorized : GoError := GoError.pkg "miniflux: unauthorized (bad credentials)"

/-- Var `ErrForbidden`. -/
def ErrForbidden : GoError := GoError.pkg "miniflux: access forbidden"

/-- Var `ErrServerError`. -/
def ErrServerError : GoError := GoError.pkg "miniflux: internal server error"

/-- Var `ErrNotFound`. -/
def ErrNotFound : GoError := GoError.pkg "miniflux: resource not found"

/-- Type `errorResponse`, the JSON object with the field `error_message`. -/
structure errorResponse where
  ErrorMessage : String
  deriving DecidableEq, Repr

/-- Type `request`: the API client. -/
structure request where
  endpoint : String
  username : String
  password : String
  deriving DecidableEq, Repr

/-- Go `http.MethodGet`. -/
def MethodGet : String := "GET"

/-- Go `http.MethodPost`. -/
def MethodPost : String := "POST"

/-- Go `http.MethodPut`. -/
def MethodPut : String := "PUT"

/-- Go `http.MethodDelete`. -/
def MethodDelete : String := "DELETE"

/-- Go `http.StatusBadRequest`. -/
def StatusBadRequest : Int := 400

/-- Go `http.StatusUnauthorized`. -/
def StatusUnauthorized : Int := 401

/-- Go `http.StatusForbidden`. -/
def StatusForbidden : Int := 403

/-- Go `http.StatusNotFound`. -/
def StatusNotFound : Int := 404

/-- Go `http.StatusInternalServerError`. -/
def StatusInternalServerError : Int := 500

/-- An `io.ReadCloser`: the bytes the stream will deliver. -/
structure ReadCloser where
  data : String
  deriving DecidableEq, Repr

/-- The argument `data interface{}` when it is not `nil`: a stream (`io.ReadCloser`) or any
other value, of a type `V` of values handed to `json.Marshal`. -/
inductive Payload (V : Type) where
  | stream (f : ReadCloser)
  | value (v : V)

/-- Go `http.Header` as the pairs added, in order. -/
abbrev Header := List (String × String)

/-- Go `http.Request`, the fields `execute` sets; `BasicAuth` is the pair `SetBasicAuth` encodes
into the `Authorization` header and `U` the type of a parsed `*url.URL`. -/
structure HttpRequest (U : Type) where
  URL : U
  Method : String
  Header : Header
  BasicAuth : Option (String × String)
  Body : Option ReadCloser

/-- Go `http.Response`, the fields `execute` reads. -/
structure Response where
  StatusCode : Int
  Body : ReadCloser
  deriving DecidableEq, Repr

/-- Go `http.Client`, the field `buildClient` sets (seconds). -/
structure HttpClient where
  Timeout : Nat
  deriving DecidableEq, Repr

/-- The library calls of `execute`, whose code is outside the file: `url.Parse`,
`http.Client.Do`, `json.Marshal` and `json.NewDecoder(body).Decode(&resp)`. -/
structure Library (U V : Type) where
  urlParse : String → Except ForeignError U
  clientDo : HttpClient → HttpRequest U → Except ForeignError Response
  jsonMarshal : V → Except ForeignError String
  jsonDecode : ReadCloser → Except ForeignError errorResponse

/-- A line written by `log.Println(text, err)`. -/
structure LogLine where
  text : String
  err : GoError
  deriving DecidableEq, Repr

/-- How a call of `execute` ends: a run-time panic, or the Go pair `(io.ReadCloser, error)`
with `none` for `nil`. -/
inductive Outcome where
  | panicked
  | returned (body : Option ReadCloser) (err : Option GoError)
  deriving DecidableEq, Repr

/-- A call of `execute` as a whole: the receiver `*r` after the call, how the call ended, the
URL text given to `url.Parse` (if the call got that far), the lines logged and whether
`response.Body.Close()` ran. -/
structure Result where
  client : request
  outcome : Outcome
  url : Option String
  logged : List LogLine
  bodyClosed : Bool
  deriving DecidableEq, Repr

/-- Go `len(s)`. -/
def len (s : String) : Int := s.length

/-- Go `s[i:]`; `none` is the panic "slice bounds out of range". -/
def sliceFrom (s : String) (i : Int) : Option String :=
  if 0 ≤ i ∧ i ≤ len s then some (String.mk (s.data.drop i.toNat)) else none

/-- Go `s[:j]`; `none` is the panic "slice bounds out of range". -/
def sliceTo (s : String) (j : Int) : Option String :=
  if 0 ≤ j ∧ j ≤ len s then some (String.mk (s.data.take j.toNat)) else none

/-- The verb `%d` of `fmt` on an `int`. -/
def formatInt : Int → String
  | Int.ofNat n => Nat.repr n
  | Int.negSucc n => "-" ++ Nat.repr (n + 1)

/-- Go `request.buildClient`. -/
def request.buildClient (_r : request) : HttpClient :=
  { Timeout := defaultTimeout }

/-- Go `request.buildHeaders`. -/
def request.buildHeaders (_r : request) : Header :=
  let headers : Header := []
  let headers := headers ++ [("User-Agent", userAgent)]
  let headers := headers ++ [("Content-Type", "application/json")]
  let headers := headers ++ [("Accept", "application/json")]
  headers

/-- Go `request.toJSON`: the bytes, and the line logged when marshalling fails. -/
def request.toJSON {U V : Type} (lib : Library U V) (_r : request) (v : V) :
    String × List LogLine :=
  match lib.jsonMarshal v with
  | Except.error err =>
    ("", [{ text := "Unable to convert interface to JSON:", err := GoError.foreign err }])
  | Except.ok b => (b, [])

/-- Lines 95-120 of `execute`, the switch on `response.StatusCode` and the two statements
after it: the pair returned and whether `response.Body.Close()` ran. -/
def mapResponse {U V : Type} (lib : Library U V) (response : Response) : Outcome × Bool :=
  if response.StatusCode = StatusUnauthorized then
    (Outcome.returned none (some ErrNotAuthorized), false)
  else if response.StatusCode = StatusForbidden then
    (Outcome.returned none (some ErrForbidden), false)
  else if response.StatusCode = StatusInternalServerError then
    (Outcome.returned none (some ErrServerError), false)
  else if response.StatusCode = StatusNotFound then
    (Outcome.returned none (some ErrNotFound), false)
  else if response.StatusCode = StatusBadRequest then
    match lib.jsonDecode response.Body with
    | Except.error err =>
      (Outcome.returned none (some (GoError.pkg
        ("miniflux: bad request error (" ++ (GoError.foreign err).Error ++ ")"))), true)
    | Except.ok resp =>
      (Outcome.returned none (some (GoError.pkg
        ("miniflux: bad request (" ++ resp.ErrorMessage ++ ")"))), true)
  else if response.StatusCode > 400 then
    (Outcome.returned none (some (GoError.pkg
      ("miniflux: status code=" ++ formatInt response.StatusCode))), false)
  else
    (Outcome.returned (some response.Body) none, false)

/-- Lines 64-66 of `execute`: the receiver with the final `/` of its endpoint cut off;
`none` is the panic of slicing the empty endpoint. -/
def request.trimEndpoint (r : request) : Option request :=
  match sliceFrom r.endpoint (len r.endpoint - 1) with
  | none => none
  | some last =>
    if last == "/" then
      match sliceTo r.endpoint (len r.endpoint - 1) with
      | none => none
      | some e => some { r with endpoint := e }
    else some r

/-- Lines 73-87 of `execute`: the request handed to the transport, and the line logged when
the payload cannot be marshalled. -/
def request.buildRequest {U V : Type} (lib : Library U V) (r : request) (u : U)
    (method : String) (data : Option (Payload V)) : HttpRequest U × List LogLine :=
  let request : HttpRequest U :=
    { URL := u, Method := method, Header := r.buildHeaders, BasicAuth := none, Body := none }
  let request := { request with BasicAuth := some (r.username, r.password) }
  match data with
  | none => (request, [])
  | some (Payload.stream f) => ({ request with Body := some f }, [])
  | some (Payload.value v) =>
    let (b, logged) := r.toJSON lib v
    ({ request with Body := some { data := b } }, logged)

/-- Go `request.execute`. -/
def request.execute {U V : Type} (lib : Library U V) (r : request) (method path : String)
    (data : Option (Payload V)) : Result :=
  match r.trimEndpoint with
  | none =>
    { client := r, outcome := Outcome.panicked, url := none, logged := [],
      bodyClosed := false }
  | some r =>
    match lib.urlParse (r.endpoint ++ path) with
    | Except.error err =>
      { client := r, outcome := Outcome.returned none (some (GoError.foreign err)),
        url := some (r.endpoint ++ path), logged := [], bodyClosed := false }
    | Except.ok u =>
      let (request, logged) := r.buildRequest lib u method data
      let client := r.buildClient
      match lib.clientDo client request with
      | Except.error err =>
        { client := r, outcome := Outcome.returned none (some (GoError.foreign err)),
          url := some (r.endpoint ++ path), logged := logged, bodyClosed := false }
      | Except.ok response =>
        let (outcome, closed) := mapResponse lib response
        { client := r, outcome := outcome, url := some (r.endpoint ++ path),
          logged := logged, bodyClosed := closed }

/-- Go `request.Get`. -/
def request.Get {U V : Type} (lib : Library U V) (r : request) (path : String) : Result :=
  r.execute lib MethodGet path none

/-- Go `request.Post`; `data` is `none` for a `nil` interface. -/
def request.Post {U V : Type} (lib : Library U V) (r : request) (path : String)
    (data : Option (Payload V)) : Result :=
  r.execute lib MethodPost path data

/-- Go `request.PostFile`; `f` is `none` for a `nil` interface. -/
def request.PostFile {U V : Type} (lib : Library U V) (r : request) (path : String)
    (f : Option ReadCloser) : Result :=
  r.execute lib MethodPost path (f.map Payload.stream)

/-- Go `request.Put`; `data` is `none` for a `nil` interface. -/
def request.Put {U V : Type} (lib : Library U V) (r : request) (path : String)
    (data : Option (Payload V)) : Result :=
  r.execute lib MethodPut path data

/-- Go `request.Delete`. -/
def request.Delete {U V : Type} (lib : Library U V) (r : request) (path : String) : Result :=
  r.execute lib MethodDelete path none

/-- A library to run `execute` on concrete inputs: every text parses, as itself; the transport
gives the fixed `answer`; strings are marshalled as themselves; the decoder accepts the one body
`\x7b"error_message":"bad input"\x7d` and fails on any other. -/
def exampleLibrary (answer : Except ForeignError Response) : Library String String where
  urlParse := fun text => Except.ok text
  clientDo := fun _ _ => answer
  jsonMarshal := fun v => Except.ok v
  jsonDecode := fun body =>
    if body.data = "\x7b\"error_message\":\"bad input\"\x7d" then
      Except.ok { ErrorMessage := "bad input" }
    else Except.error { detail := "invalid character" }

end Client

namespace Middleware

/-! ### Lemmas on the gate -/

theorem isPublicRoute_eq (s : SessionMiddleware) (r : Request) :
    s.isPublicRoute r =
      (CurrentRoute r).map (fun route => decide (route.GetName ∈ publicRouteNames)) := by
  unfold SessionMiddleware.isPublicRoute
  cases h : CurrentRoute r with
  | none => rfl
  | some route =>
    simp only [Option.map_some', publicRouteNames]
    split <;> simp_all

theorem getSessionFromCookie_no_cookie (s : SessionMiddleware) (r : Request)
    (hc : r.Cookie "sessionID" = none) : s.getSessionFromCookie r = (none, []) := by
  simp [SessionMiddleware.getSessionFromCookie, hc]

theorem getSessionFromCookie_found (s : SessionMiddleware) (r : Request) (c : Cookie)
    (session : Session) (hc : r.Cookie "sessionID" = some c)
    (hs : s.store.GetSessionByToken c.Value = (some session, none)) :
    s.getSessionFromCookie r = (some session, []) := by
  simp [SessionMiddleware.getSessionFromCookie, hc, hs]

theorem getSessionFromCookie_failed (s : SessionMiddleware) (r : Request) (c : Cookie)
    (hc : r.Cookie "sessionID" = some c)
    (hfail : (s.store.GetSessionByToken c.Value).2 ≠ none ∨
      (s.store.GetSessionByToken c.Value).1 = none) :
    ∃ logged, s.getSessionFromCookie r = (none, logged) ∧ clientEffects logged = [] := by
  unfold SessionMiddleware.getSessionFromCookie
  rw [hc]
  rcases h : s.store.GetSessionByToken c.Value with ⟨session, err⟩
  rw [h] at hfail
  cases err with
  | some e => exact ⟨[Effect.log [LogArg.error e]], by simp [h], rfl⟩
  | none =>
    rcases hfail with hfail | hfail
    · exact absurd rfl hfail
    · simp only at hfail
      subst hfail
      exact ⟨[], by simp [h], rfl⟩

theorem Handler_no_session (s : SessionMiddleware) (r : Request) (logged : List Effect)
    (route : Route) (hg : s.getSessionFromCookie r = (none, logged))
    (hr : CurrentRoute r = some route) :
    s.Handler r =
      logged ++ [Effect.log [LogArg.text "[Middleware:Session] Session not found"]] ++
        (if route.GetName ∈ publicRouteNames then [Effect.serveHTTP r]
         else [Effect.redirect (s.router.GetRoute "login") StatusFound]) := by
  unfold SessionMiddleware.Handler
  rw [hg, isPublicRoute_eq, hr]
  by_cases hn : route.GetName ∈ publicRouteNames <;> simp [hn]

theorem withoutCookie_Cookie (r : Request) (name : String) :
    (r.withoutCookie name).Cookie name = none := by
  simp [Request.withoutCookie, Request.Cookie, List.find?_eq_none]

/-! ### The gate: claims -/

/-- C1: when the `sessionID` cookie holds a token the store resolves to a session with no
error, the handler, whatever the route (matched or not, public or protected), logs the session
and calls the downstream handler exactly once and does nothing else a client can see: no
redirect is written; the request passed on is the incoming one with a context in which
`IsAuthenticated` is `true` and `UserId` is the session's `UserID`. -/
theorem Handler_session_forwards_identity (s : SessionMiddleware) (r : Request) (c : Cookie)
    (session : Session) (hc : r.Cookie "sessionID" = some c)
    (hs : s.store.GetSessionByToken c.Value = (some session, none)) :
    ∃ r' : Request,
      r' = r.WithContext ((r.Context.WithValue "UserId" (CtxValue.int64 session.UserID)).WithValue
        "IsAuthenticated" (CtxValue.bool true)) ∧
      s.Handler r =
        [Effect.log [LogArg.text "[Middleware:Session]", LogArg.session session],
         Effect.serveHTTP r'] ∧
      served (s.Handler r) = [r'] ∧
      redirects (s.Handler r) = [] ∧
      r'.Context.Value "IsAuthenticated" = some (CtxValue.bool true) ∧
      r'.Context.Value "UserId" = some (CtxValue.int64 session.UserID) ∧
      r'.cookies = r.cookies ∧ r'.route = r.route := by
  have hH : s.Handler r =
      [Effect.log [LogArg.text "[Middleware:Session]", LogArg.session session],
       Effect.serveHTTP (r.WithContext ((r.Context.WithValue "UserId"
        (CtxValue.int64 session.UserID)).WithValue "IsAuthenticated" (CtxValue.bool true)))] := by
    unfold SessionMiddleware.Handler
    rw [getSessionFromCookie_found s r c session hc hs]
    rfl
  refine ⟨_, rfl, hH, ?_, ?_, ?_, ?_, rfl, rfl⟩
  · rw [hH]; rfl
  · rw [hH]; rfl
  · simp [Request.WithContext, Request.Context, Context.WithValue, Context.Value]
  · simp [Request.WithContext, Request.Context, Context.WithValue, Context.Value]

/-- Witness of C1: a request with the cookie `sessionID=abc` on the protected route `feeds`,
the store resolving `abc` to the session of user 7. -/
theorem Handler_session_forwards_identity_witness :
    ∃ r' : Request,
      r' = (Request.mk [⟨"sessionID", "abc"⟩] [] (some ⟨"feeds"⟩)).WithContext
        [("IsAuthenticated", CtxValue.bool true), ("UserId", CtxValue.int64 7)] ∧
      SessionMiddleware.Handler
          ⟨⟨fun t => if t = "abc" then (some ⟨7, "abc"⟩, none) else (none, none)⟩,
           ⟨fun _ => "/login"⟩⟩
          ⟨[⟨"sessionID", "abc"⟩], [], some ⟨"feeds"⟩⟩ =
        [Effect.log [LogArg.text "[Middleware:Session]", LogArg.session ⟨7, "abc"⟩],
         Effect.serveHTTP r'] :=
  let ⟨r', h1, h2, _⟩ := Handler_session_forwards_identity
    ⟨⟨fun t => if t = "abc" then (some ⟨7, "abc"⟩, none) else (none, none)⟩,
     ⟨fun _ => "/login"⟩⟩
    ⟨[⟨"sessionID", "abc"⟩], [], some ⟨"feeds"⟩⟩ ⟨"sessionID", "abc"⟩ ⟨7, "abc"⟩
    (by decide) (by decide)
  ⟨r', h1, h2⟩

/-- C2: a request without a `sessionID` cookie whose matched route has a name outside
`login`, `checkLogin`, `stylesheet`, `javascript` gets one redirect, with status 302, to the
URL of the route named `login`; the downstream handler is not called. -/
theorem Handler_no_cookie_protected_redirects (s : SessionMiddleware) (r : Request)
    (route : Route) (hc : r.Cookie "sessionID" = none) (hr : CurrentRoute r = some route)
    (hn : route.GetName ∉ publicRouteNames) :
    s.Handler r =
      [Effect.log [LogArg.text "[Middleware:Session] Session not found"],
       Effect.redirect (s.router.GetRoute "login") 302] ∧
    redirects (s.Handler r) = [(s.router.GetRoute "login", 302)] ∧
    served (s.Handler r) = [] := by
  have hH := Handler_no_session s r [] route (getSessionFromCookie_no_cookie s r hc) hr
  rw [if_neg hn] at hH
  rw [hH]
  exact ⟨rfl, rfl, rfl⟩

/-- Witness of C2: no cookie, route `feeds`. -/
theorem Handler_no_cookie_protected_redirects_witness :
    SessionMiddleware.Handler ⟨⟨fun _ => (none, none)⟩, ⟨fun n => "/" ++ n⟩⟩
        ⟨[⟨"theme", "dark"⟩], [], some ⟨"feeds"⟩⟩ =
      [Effect.log [LogArg.text "[Middleware:Session] Session not found"],
       Effect.redirect "/login" 302] :=
  (Handler_no_cookie_protected_redirects ⟨⟨fun _ => (none, none)⟩, ⟨fun n => "/" ++ n⟩⟩
    ⟨[⟨"theme", "dark"⟩], [], some ⟨"feeds"⟩⟩ ⟨"feeds"⟩ (by decide) rfl (by decide)).1

/-- C3: a request without a `sessionID` cookie whose matched route is named `login`,
`checkLogin`, `stylesheet` or `javascript` is passed to the downstream handler once and as it
came (same cookies, same context, so no `UserId` or `IsAuthenticated` is added); no redirect is
written. -/
theorem Handler_no_cookie_public_forwards (s : SessionMiddleware) (r : Request)
    (route : Route) (hc : r.Cookie "sessionID" = none) (hr : CurrentRoute r = some route)
    (hn : route.GetName ∈ publicRouteNames) :
    s.Handler r =
      [Effect.log [LogArg.text "[Middleware:Session] Session not found"],
       Effect.serveHTTP r] ∧
    served (s.Handler r) = [r] ∧
    redirects (s.Handler r) = [] := by
  have hH := Handler_no_session s r [] route (getSessionFromCookie_no_cookie s r hc) hr
  rw [if_pos hn] at hH
  rw [hH]
  exact ⟨rfl, rfl, rfl⟩

/-- Witness of C3: no cookie, route `stylesheet`. -/
theorem Handler_no_cookie_public_forwards_witness :
    served (SessionMiddleware.Handler ⟨⟨fun _ => (none, none)⟩, ⟨fun n => "/" ++ n⟩⟩
        ⟨[], [], some ⟨"stylesheet"⟩⟩) = [⟨[], [], some ⟨"stylesheet"⟩⟩] :=
  (Handler_no_cookie_public_forwards ⟨⟨fun _ => (none, none)⟩, ⟨fun n => "/" ++ n⟩⟩
    ⟨[], [], some ⟨"stylesheet"⟩⟩ ⟨"stylesheet"⟩ (by decide) rfl (by decide)).2.1

/-- C4: a request on a matched route whose `sessionID` cookie fails the lookup (the store
returns an error, or no session) gets the outcome of a request without the cookie: what the
client and the downstream handler see is the one call of the downstream handler with the
request as it came when the route is public, and the one redirect (302) to the `login` URL
when it is not; the same holds of the request sent without the cookie. The store's error
appears in a log line only: the outcome is the same for any other store that fails on the
token, whatever it returns. -/
theorem Handler_failed_lookup_as_no_cookie (s : SessionMiddleware) (r : Request) (c : Cookie)
    (route : Route) (hc : r.Cookie "sessionID" = some c)
    (hfail : (s.store.GetSessionByToken c.Value).2 ≠ none ∨
      (s.store.GetSessionByToken c.Value).1 = none)
    (hr : CurrentRoute r = some route) :
    clientEffects (s.Handler r) =
      (if route.GetName ∈ publicRouteNames then [Effect.serveHTTP r]
       else [Effect.redirect (s.router.GetRoute "login") 302]) ∧
    (r.withoutCookie "sessionID").Cookie "sessionID" = none ∧
    clientEffects (s.Handler (r.withoutCookie "sessionID")) =
      (if route.GetName ∈ publicRouteNames then [Effect.serveHTTP (r.withoutCookie "sessionID")]
       else [Effect.redirect (s.router.GetRoute "login") 302]) ∧
    (∀ args, Effect.log args ∉ clientEffects (s.Handler r)) ∧
    (∀ store' : Storage,
      ((store'.GetSessionByToken c.Value).2 ≠ none ∨
        (store'.GetSessionByToken c.Value).1 = none) →
      clientEffects (SessionMiddleware.Handler ⟨store', s.router⟩ r) =
        clientEffects (s.Handler r)) := by
  have key : ∀ s' : SessionMiddleware, s'.router = s.router →
      ((s'.store.GetSessionByToken c.Value).2 ≠ none ∨
        (s'.store.GetSessionByToken c.Value).1 = none) →
      clientEffects (s'.Handler r) =
        (if route.GetName ∈ publicRouteNames then [Effect.serveHTTP r]
         else [Effect.redirect (s.router.GetRoute "login") 302]) := by
    intro s' hrt hf
    obtain ⟨logged, hg, hl⟩ := getSessionFromCookie_failed s' r c hc hf
    rw [Handler_no_session s' r logged route hg hr, hrt]
    unfold clientEffects at hl ⊢
    rw [List.filter_append, List.filter_append, hl]
    by_cases hn : route.GetName ∈ publicRouteNames <;> simp [hn, StatusFound]
  have h1 := key s rfl hfail
  refine ⟨h1, withoutCookie_Cookie r "sessionID", ?_, ?_, ?_⟩
  · rw [Handler_no_session s (r.withoutCookie "sessionID") [] route
      (getSessionFromCookie_no_cookie s _ (withoutCookie_Cookie r "sessionID")) hr]
    unfold clientEffects
    by_cases hn : route.GetName ∈ publicRouteNames <;> simp [hn, StatusFound]
  · intro args hmem
    unfold clientEffects at hmem
    simpa using (List.mem_filter.mp hmem).2
  · intro store' hf
    rw [h1]
    exact key ⟨store', s.router⟩ rfl hf

/-- Witness of C4: the cookie `sessionID=gone` on the protected route `feeds`, the store
answering every token with the error "session not found". -/
theorem Handler_failed_lookup_as_no_cookie_witness :
    clientEffects (SessionMiddleware.Handler
        ⟨⟨fun _ => (none, some (GoError.foreign ⟨"session not found"⟩))⟩, ⟨fun n => "/" ++ n⟩⟩
        ⟨[⟨"sessionID", "gone"⟩], [], some ⟨"feeds"⟩⟩) =
      [Effect.redirect "/login" 302] :=
  (Handler_failed_lookup_as_no_cookie
    ⟨⟨fun _ => (none, some (GoError.foreign ⟨"session not found"⟩))⟩, ⟨fun n => "/" ++ n⟩⟩
    ⟨[⟨"sessionID", "gone"⟩], [], some ⟨"feeds"⟩⟩ ⟨"sessionID", "gone"⟩ ⟨"feeds"⟩
    (by decide) (Or.inl (by decide)) rfl).1

/-- C5: `isPublicRoute` answers `true` exactly for a matched route named `login`,
`checkLogin`, `stylesheet` or `javascript` and `false` for every other name; so the unnamed
route (empty name) and names differing from a listed one in case or by a prefix or suffix are
protected. The answer is a function of the route name alone: two requests on routes of the same
name get the same answer, whatever their cookies and context and whatever store and router the
middleware holds. -/
theorem isPublicRoute_exact_name :
    (∀ (s : SessionMiddleware) (r : Request) (route : Route), CurrentRoute r = some route →
      (s.isPublicRoute r = some true ↔
        (route.GetName = "login" ∨ route.GetName = "checkLogin" ∨
          route.GetName = "stylesheet" ∨ route.GetName = "javascript")) ∧
      (s.isPublicRoute r = some false ↔
        ¬ (route.GetName = "login" ∨ route.GetName = "checkLogin" ∨
          route.GetName = "stylesheet" ∨ route.GetName = "javascript"))) ∧
    (∀ (s₁ s₂ : SessionMiddleware) (r₁ r₂ : Request) (route₁ route₂ : Route),
      CurrentRoute r₁ = some route₁ → CurrentRoute r₂ = some route₂ →
      route₁.GetName = route₂.GetName → s₁.isPublicRoute r₁ = s₂.isPublicRoute r₂) ∧
    (∀ (s : SessionMiddleware) (cookies : List Cookie) (ctx : Context),
      ∀ n ∈ ["", "Login", "LOGIN", "login ", "login/", "xlogin", "checklogin", "CheckLogin",
          "styleSheet", "stylesheet.css", "javascript2", "Javascript", "logout"],
        s.isPublicRoute ⟨cookies, ctx, some ⟨n⟩⟩ = some false) := by
  refine ⟨?_, ?_, ?_⟩
  · intro s r route hr
    rw [isPublicRoute_eq, hr]
    simp [publicRouteNames]
  · intro s₁ s₂ r₁ r₂ route₁ route₂ h₁ h₂ hn
    rw [isPublicRoute_eq, isPublicRoute_eq, h₁, h₂]
    simp [hn]
  · intro s cookies ctx n hn
    rw [isPublicRoute_eq]
    simp only [List.mem_cons, List.mem_singleton, List.not_mem_nil, or_false] at hn
    rcases hn with h | h | h | h | h | h | h | h | h | h | h | h | h <;> subst h <;>
      simp [CurrentRoute, Route.GetName, publicRouteNames]

/-- Witness of C5: the route named `checkLogin` is public, on a request carrying a cookie. -/
theorem isPublicRoute_exact_name_witness :
    SessionMiddleware.isPublicRoute ⟨⟨fun _ => (none, none)⟩, ⟨fun n => "/" ++ n⟩⟩
      ⟨[⟨"sessionID", "abc"⟩], [], some ⟨"checkLogin"⟩⟩ = some true :=
  ((isPublicRoute_exact_name.1 ⟨⟨fun _ => (none, none)⟩, ⟨fun n => "/" ++ n⟩⟩
    ⟨[⟨"sessionID", "abc"⟩], [], some ⟨"checkLogin"⟩⟩ ⟨"checkLogin"⟩ rfl).1).mpr
    (Or.inr (Or.inl rfl))

end Middleware

end Miniflux

namespace Miniflux.Client

/-! ### Lemmas on decimal printing -/

theorem toDigitsCore_append (n : Nat) : ∀ fuel acc, n < fuel →
    Nat.toDigitsCore 10 fuel n acc = Nat.toDigitsCore 10 (n + 1) n [] ++ acc := by
  induction n using Nat.strong_induction_on with
  | _ n ih =>
    intro fuel acc hlt
    obtain ⟨f, rfl⟩ : ∃ f, fuel = f + 1 := ⟨fuel - 1, by omega⟩
    simp only [Nat.toDigitsCore]
    by_cases h0 : n / 10 = 0
    · simp [h0]
    · simp only [h0, if_false]
      have hlt' : n / 10 < n := by omega
      rw [ih (n / 10) hlt' f _ (by omega), ih (n / 10) hlt' n [Nat.digitChar (n % 10)] hlt']
      simp

theorem toDigits_small (n : Nat) (h : n / 10 = 0) :
    Nat.toDigits 10 n = [Nat.digitChar (n % 10)] := by
  simp [Nat.toDigits, Nat.toDigitsCore, h]

theorem toDigits_large (n : Nat) (h : n / 10 ≠ 0) :
    Nat.toDigits 10 n = Nat.toDigits 10 (n / 10) ++ [Nat.digitChar (n % 10)] := by
  have hlt : n / 10 < n := by omega
  simp only [Nat.toDigits, Nat.toDigitsCore, h, if_false]
  exact toDigitsCore_append (n / 10) n _ hlt

theorem toDigits_ne_nil (n : Nat) : Nat.toDigits 10 n ≠ [] := by
  by_cases h : n / 10 = 0
  · rw [toDigits_small n h]; simp
  · rw [toDigits_large n h]; simp

theorem digitChar_inj : ∀ a < 10, ∀ b < 10, Nat.digitChar a = Nat.digitChar b → a = b := by
  decide

theorem toDigits_injective (n : Nat) : ∀ m, Nat.toDigits 10 n = Nat.toDigits 10 m → n = m := by
  induction n using Nat.strong_induction_on with
  | _ n ih =>
    intro m h
    by_cases hn : n / 10 = 0 <;> by_cases hm : m / 10 = 0
    · rw [toDigits_small n hn, toDigits_small m hm] at h
      have := digitChar_inj (n % 10) (Nat.mod_lt _ (by decide)) (m % 10)
        (Nat.mod_lt _ (by decide)) (by simpa using h)
      omega
    · rw [toDigits_small n hn, toDigits_large m hm] at h
      have hl := congrArg List.length h
      have := List.length_pos.mpr (toDigits_ne_nil (m / 10))
      rw [List.length_append] at hl
      simp only [List.length_singleton] at hl
      omega
    · rw [toDigits_large n hn, toDigits_small m hm] at h
      have hl := congrArg List.length h
      have := List.length_pos.mpr (toDigits_ne_nil (n / 10))
      rw [List.length_append] at hl
      simp only [List.length_singleton] at hl
      omega
    · rw [toDigits_large n hn, toDigits_large m hm] at h
      obtain ⟨h1, h2⟩ := List.append_inj' h rfl
      have hq := ih (n / 10) (by omega) (m / 10) h1
      have hr := digitChar_inj (n % 10) (Nat.mod_lt _ (by decide)) (m % 10)
        (Nat.mod_lt _ (by decide)) (by simpa using h2)
      omega

theorem toDigits_no_minus (n : Nat) : ∀ c ∈ Nat.toDigits 10 n, c ≠ '-' := by
  have hd : ∀ a < 10, Nat.digitChar a ≠ '-' := by decide
  induction n using Nat.strong_induction_on with
  | _ n ih =>
    intro c hc
    by_cases hn : n / 10 = 0
    · rw [toDigits_small n hn] at hc
      simp only [List.mem_singleton] at hc
      rw [hc]
      exact hd _ (Nat.mod_lt _ (by decide))
    · rw [toDigits_large n hn, List.mem_append] at hc
      rcases hc with hc | hc
      · exact ih (n / 10) (by omega) c hc
      · simp only [List.mem_singleton] at hc
        rw [hc]
        exact hd _ (Nat.mod_lt _ (by decide))

theorem formatInt_injective (a b : Int) (h : formatInt a = formatInt b) : a = b := by
  cases a with
  | ofNat n =>
    cases b with
    | ofNat m =>
      simp only [formatInt, Nat.repr, List.asString] at h
      rw [toDigits_injective n m (congrArg String.data h)]
    | negSucc m =>
      exfalso
      simp only [formatInt, Nat.repr, List.asString] at h
      have h' := congrArg String.data h
      simp only [String.data_append] at h'
      have hmem : '-' ∈ Nat.toDigits 10 n := by rw [h']; simp
      exact toDigits_no_minus n _ hmem rfl
  | negSucc n =>
    cases b with
    | ofNat m =>
      exfalso
      simp only [formatInt, Nat.repr, List.asString] at h
      have h' := congrArg String.data h
      simp only [String.data_append] at h'
      have hmem : '-' ∈ Nat.toDigits 10 m := by rw [← h']; simp
      exact toDigits_no_minus m _ hmem rfl
    | negSucc m =>
      simp only [formatInt, Nat.repr, List.asString] at h
      have h' := congrArg String.data h
      simp only [String.data_append, List.append_cancel_left_eq] at h'
      have hnm : n = m := by
        have := toDigits_injective _ _ h'
        omega
      rw [hnm]

/-! ### Lemmas on `execute` -/

theorem trimEndpoint_slash (r : request) (e : String) (h : r.endpoint = e ++ "/") :
    r.trimEndpoint = some { r with endpoint := e } := by
  have hl : r.endpoint.length = e.data.length + 1 := by
    rw [h, String.length_append]; rfl
  have hlen : len r.endpoint - 1 = (e.data.length : Int) := by
    unfold len; rw [hl]; push_cast; omega
  have hdata : r.endpoint.data = e.data ++ ['/'] := by
    rw [h, String.data_append]
  have hle : (0 : Int) ≤ (e.data.length : Int) ∧ (e.data.length : Int) ≤ len r.endpoint := by
    unfold len; rw [hl]; push_cast; omega
  have h1 : sliceFrom r.endpoint (len r.endpoint - 1) = some "/" := by
    unfold sliceFrom
    rw [hlen, if_pos hle, hdata, Int.toNat_ofNat, List.drop_left]
  have h2 : sliceTo r.endpoint (len r.endpoint - 1) = some e := by
    unfold sliceTo
    rw [hlen, if_pos hle, hdata, Int.toNat_ofNat, List.take_left]
  unfold request.trimEndpoint
  rw [h1, h2]
  rfl

theorem trimEndpoint_empty (r : request) (h : r.endpoint = "") : r.trimEndpoint = none := by
  unfold request.trimEndpoint sliceFrom len
  rw [h]
  rfl

theorem trimEndpoint_no_slash (r : request) (hne : r.endpoint ≠ "")
    (h : ∀ e : String, r.endpoint ≠ e ++ "/") : r.trimEndpoint = some r := by
  have hxs : r.endpoint.data ≠ [] := by
    intro hnil
    exact hne (String.ext hnil)
  obtain ⟨init, c, hdata⟩ : ∃ init c, r.endpoint.data = init ++ [c] :=
    ⟨_, _, (List.dropLast_append_getLast hxs).symm⟩
  have hc : c ≠ '/' := by
    intro hc
    apply h (String.mk init)
    apply String.ext
    rw [String.data_append, hdata, hc]
  have hl : r.endpoint.length = init.length + 1 := by
    show r.endpoint.data.length = _
    rw [hdata]; simp
  have hlen : len r.endpoint - 1 = (init.length : Int) := by
    unfold len; rw [hl]; push_cast; omega
  have hle : (0 : Int) ≤ (init.length : Int) ∧ (init.length : Int) ≤ len r.endpoint := by
    unfold len; rw [hl]; push_cast; omega
  have h1 : sliceFrom r.endpoint (len r.endpoint - 1) = some (String.mk [c]) := by
    unfold sliceFrom
    rw [hlen, if_pos hle, hdata, Int.toNat_ofNat, List.drop_left]
  have h2 : (String.mk [c] == "/") = false := by
    rw [beq_eq_false_iff_ne]
    intro heq
    have := congrArg String.data heq
    simp at this
    exact hc this
  unfold request.trimEndpoint
  rw [h1]
  simp only [h2]
  rfl

theorem trimEndpoint_isSome (r : request) (hne : r.endpoint ≠ "") :
    ∃ r', r.trimEndpoint = some r' ∧ r'.username = r.username ∧ r'.password = r.password := by
  by_cases h : ∃ e : String, r.endpoint = e ++ "/"
  · obtain ⟨e, he⟩ := h
    exact ⟨_, trimEndpoint_slash r e he, rfl, rfl⟩
  · exact ⟨r, trimEndpoint_no_slash r hne (fun e he => h ⟨e, he⟩), rfl, rfl⟩

theorem trimEndpoint_ne_empty (r r' : request) (h : r.trimEndpoint = some r') :
    r.endpoint ≠ "" := by
  intro he
  rw [trimEndpoint_empty r he] at h
  exact Option.noConfusion h

theorem execute_panic (U V : Type) (lib : Library U V) (r : request) (method path : String)
    (data : Option (Payload V)) (h : r.trimEndpoint = none) :
    r.execute lib method path data =
      { client := r, outcome := Outcome.panicked, url := none, logged := [],
        bodyClosed := false } := by
  unfold request.execute
  rw [h]

theorem execute_parse_error (U V : Type) (lib : Library U V) (r r' : request)
    (method path : String) (data : Option (Payload V)) (err : ForeignError)
    (ht : r.trimEndpoint = some r') (hu : lib.urlParse (r'.endpoint ++ path) = Except.error err) :
    r.execute lib method path data =
      { client := r', outcome := Outcome.returned none (some (GoError.foreign err)),
        url := some (r'.endpoint ++ path), logged := [], bodyClosed := false } := by
  unfold request.execute
  rw [ht]
  simp only [hu]

theorem execute_transport_error (U V : Type) (lib : Library U V) (r r' : request)
    (method path : String) (data : Option (Payload V)) (u : U) (err : ForeignError)
    (ht : r.trimEndpoint = some r') (hu : lib.urlParse (r'.endpoint ++ path) = Except.ok u)
    (hdo : lib.clientDo r'.buildClient (r'.buildRequest lib u method data).1 =
      Except.error err) :
    r.execute lib method path data =
      { client := r', outcome := Outcome.returned none (some (GoError.foreign err)),
        url := some (r'.endpoint ++ path), logged := (r'.buildRequest lib u method data).2,
        bodyClosed := false } := by
  unfold request.execute
  rw [ht]
  simp only [hu, hdo]

theorem execute_response (U V : Type) (lib : Library U V) (r r' : request)
    (method path : String) (data : Option (Payload V)) (u : U) (response : Response)
    (ht : r.trimEndpoint = some r') (hu : lib.urlParse (r'.endpoint ++ path) = Except.ok u)
    (hdo : lib.clientDo r'.buildClient (r'.buildRequest lib u method data).1 =
      Except.ok response) :
    r.execute lib method path data =
      { client := r', outcome := (mapResponse lib response).1,
        url := some (r'.endpoint ++ path), logged := (r'.buildRequest lib u method data).2,
        bodyClosed := (mapResponse lib response).2 } := by
  unfold request.execute
  rw [ht]
  simp only [hu, hdo]

theorem execute_client_url (U V : Type) (lib : Library U V) (r r' : request)
    (method path : String) (data : Option (Payload V)) (ht : r.trimEndpoint = some r') :
    (r.execute lib method path data).client = r' ∧
      (r.execute lib method path data).url = some (r'.endpoint ++ path) := by
  cases hu : lib.urlParse (r'.endpoint ++ path) with
  | error err => rw [execute_parse_error U V lib r r' method path data err ht hu]; exact ⟨rfl, rfl⟩
  | ok u =>
    cases hdo : lib.clientDo r'.buildClient (r'.buildRequest lib u method data).1 with
    | error err =>
      rw [execute_transport_error U V lib r r' method path data u err ht hu hdo]
      exact ⟨rfl, rfl⟩
    | ok response =>
      rw [execute_response U V lib r r' method path data u response ht hu hdo]
      exact ⟨rfl, rfl⟩

theorem mapResponse_ge (U V : Type) (lib : Library U V) (response : Response)
    (h : 400 ≤ response.StatusCode) :
    ∃ e, (mapResponse lib response).1 = Outcome.returned none (some e) := by
  unfold mapResponse
  split_ifs with h1 h2 h3 h4 h5 h6
  · exact ⟨_, rfl⟩
  · exact ⟨_, rfl⟩
  · exact ⟨_, rfl⟩
  · exact ⟨_, rfl⟩
  · cases lib.jsonDecode response.Body <;> exact ⟨_, rfl⟩
  · exact ⟨_, rfl⟩
  · exfalso
    simp only [StatusBadRequest] at h5
    omega

theorem mapResponse_lt (U V : Type) (lib : Library U V) (response : Response)
    (h : response.StatusCode < 400) :
    mapResponse lib response = (Outcome.returned (some response.Body) none, false) := by
  unfold mapResponse
  simp only [StatusUnauthorized, StatusForbidden, StatusInternalServerError, StatusNotFound,
    StatusBadRequest]
  rw [if_neg (by omega), if_neg (by omega), if_neg (by omega), if_neg (by omega),
    if_neg (by omega), if_neg (by omega)]

theorem mapResponse_other (U V : Type) (lib : Library U V) (response : Response)
    (h : 400 ≤ response.StatusCode) (hn : response.StatusCode ∉ [400, 401, 403, 404, 500]) :
    mapResponse lib response =
      (Outcome.returned none (some (GoError.pkg
        ("miniflux: status code=" ++ formatInt response.StatusCode))), false) := by
  simp only [List.mem_cons, List.mem_singleton, List.not_mem_nil, or_false, not_or] at hn
  unfold mapResponse
  simp only [StatusUnauthorized, StatusForbidden, StatusInternalServerError, StatusNotFound,
    StatusBadRequest]
  rw [if_neg hn.2.1, if_neg hn.2.2.1, if_neg hn.2.2.2.2, if_neg hn.2.2.2.1, if_neg hn.1,
    if_pos (by omega)]

theorem mapResponse_bad_request (U V : Type) (lib : Library U V) (response : Response)
    (h : response.StatusCode = 400) :
    mapResponse lib response =
      match lib.jsonDecode response.Body with
      | Except.error err =>
        (Outcome.returned none (some (GoError.pkg
          ("miniflux: bad request error (" ++ err.detail ++ ")"))), true)
      | Except.ok resp =>
        (Outcome.returned none (some (GoError.pkg
          ("miniflux: bad request (" ++ resp.ErrorMessage ++ ")"))), true) := by
  unfold mapResponse
  simp only [StatusUnauthorized, StatusForbidden, StatusInternalServerError, StatusNotFound,
    StatusBadRequest, h]
  rw [if_neg (by decide), if_neg (by decide), if_neg (by decide), if_neg (by decide),
    if_pos trivial]
  rfl

theorem append_left_cancel (a b c : String) (h : a ++ b = a ++ c) : b = c := by
  have h' := congrArg String.data h
  simp only [String.data_append, List.append_cancel_left_eq] at h'
  exact String.ext h'

theorem append_right_cancel (a b c : String) (h : a ++ c = b ++ c) : a = b := by
  have h' := congrArg String.data h
  simp only [String.data_append, List.append_cancel_right_eq] at h'
  exact String.ext h'

/-! ### The API client: claims -/

/-- C6: when the call reaches the transport (the endpoint is not empty, `r'` being the client
once its final `/` is cut, and the URL parses) and the transport returns a response with status
401, 403, 500 or 404, `execute` returns no body and the fixed error `ErrNotAuthorized`,
`ErrForbidden`, `ErrServerError` or `ErrNotFound` respectively, whatever the method, path,
payload and response body; the four errors are pairwise distinct. -/
theorem execute_fixed_errors (U V : Type) (lib : Library U V) (r r' : request)
    (method path : String) (data : Option (Payload V)) (u : U) (response : Response)
    (ht : r.trimEndpoint = some r') (hu : lib.urlParse (r'.endpoint ++ path) = Except.ok u)
    (hdo : lib.clientDo r'.buildClient (r'.buildRequest lib u method data).1 =
      Except.ok response) :
    (response.StatusCode = 401 →
      (r.execute lib method path data).outcome = Outcome.returned none (some ErrNotAuthorized)) ∧
    (response.StatusCode = 403 →
      (r.execute lib method path data).outcome = Outcome.returned none (some ErrForbidden)) ∧
    (response.StatusCode = 500 →
      (r.execute lib method path data).outcome = Outcome.returned none (some ErrServerError)) ∧
    (response.StatusCode = 404 →
      (r.execute lib method path data).outcome = Outcome.returned none (some ErrNotFound)) ∧
    (ErrNotAuthorized ≠ ErrForbidden ∧ ErrNotAuthorized ≠ ErrServerError ∧
      ErrNotAuthorized ≠ ErrNotFound ∧ ErrForbidden ≠ ErrServerError ∧
      ErrForbidden ≠ ErrNotFound ∧ ErrServerError ≠ ErrNotFound) ∧
    (∀ response' : Response, response'.StatusCode = response.StatusCode →
      response.StatusCode ∈ [401, 403, 500, 404] →
      (mapResponse lib response').1 = (mapResponse lib response).1) := by
  rw [execute_response U V lib r r' method path data u response ht hu hdo]
  refine ⟨?_, ?_, ?_, ?_, by decide, ?_⟩
  · intro h
    simp [mapResponse, h, StatusUnauthorized]
  · intro h
    simp [mapResponse, h, StatusUnauthorized, StatusForbidden]
  · intro h
    simp [mapResponse, h, StatusUnauthorized, StatusForbidden, StatusInternalServerError]
  · intro h
    simp [mapResponse, h, StatusUnauthorized, StatusForbidden, StatusInternalServerError,
      StatusNotFound]
  · intro response' hs hmem
    simp only [List.mem_cons, List.mem_singleton, List.not_mem_nil, or_false] at hmem
    rcases hmem with h | h | h | h <;>
      simp [mapResponse, hs, h, StatusUnauthorized, StatusForbidden, StatusInternalServerError,
        StatusNotFound]

/-- Witness of C6: a `GET` of `/v1/me` answered with status 403 and a body. -/
theorem execute_fixed_errors_witness :
    (request.execute (exampleLibrary (Except.ok ⟨403, ⟨"denied"⟩⟩))
      ⟨"http://h/", "u", "p"⟩ "GET" "/v1/me" none).outcome =
        Outcome.returned none (some ErrForbidden) :=
  (execute_fixed_errors String String (exampleLibrary (Except.ok ⟨403, ⟨"denied"⟩⟩))
    ⟨"http://h/", "u", "p"⟩ ⟨"http://h", "u", "p"⟩ "GET" "/v1/me" none "http://h/v1/me"
    ⟨403, ⟨"denied"⟩⟩ (by decide) rfl rfl).2.1 rfl

/-- C7: when the call reaches the transport and the response has a status `c ≥ 400` other than
400, 401, 403, 404 and 500, `execute` returns no body and the error with the text
`miniflux: status code=c`, `c` printed in decimal; responses with two different such codes
give different errors; and no response with a status `≥ 400` gives a return without error. -/
theorem execute_unexpected_status (U V : Type) (lib : Library U V) (r r' : request)
    (method path : String) (data : Option (Payload V)) (u : U) (response : Response)
    (ht : r.trimEndpoint = some r') (hu : lib.urlParse (r'.endpoint ++ path) = Except.ok u)
    (hdo : lib.clientDo r'.buildClient (r'.buildRequest lib u method data).1 =
      Except.ok response) :
    (400 ≤ response.StatusCode → response.StatusCode ∉ [400, 401, 403, 404, 500] →
      (r.execute lib method path data).outcome =
        Outcome.returned none (some (GoError.pkg
          ("miniflux: status code=" ++ formatInt response.StatusCode)))) ∧
    (400 ≤ response.StatusCode →
      (∃ e, (r.execute lib method path data).outcome = Outcome.returned none (some e)) ∧
      ∀ body, (r.execute lib method path data).outcome ≠ Outcome.returned body none) ∧
    (∀ response₁ response₂ : Response,
      400 ≤ response₁.StatusCode → response₁.StatusCode ∉ [400, 401, 403, 404, 500] →
      400 ≤ response₂.StatusCode → response₂.StatusCode ∉ [400, 401, 403, 404, 500] →
      response₁.StatusCode ≠ response₂.StatusCode →
      (mapResponse lib response₁).1 ≠ (mapResponse lib response₂).1) := by
  rw [execute_response U V lib r r' method path data u response ht hu hdo]
  refine ⟨?_, ?_, ?_⟩
  · intro h hn
    simp only [mapResponse_other U V lib response h hn]
  · intro h
    obtain ⟨e, he⟩ := mapResponse_ge U V lib response h
    simp only [he]
    exact ⟨⟨e, rfl⟩, fun body hb => by simp at hb⟩
  · intro response₁ response₂ h₁ hn₁ h₂ hn₂ hne heq
    rw [mapResponse_other U V lib response₁ h₁ hn₁,
      mapResponse_other U V lib response₂ h₂ hn₂] at heq
    simp only [Outcome.returned.injEq, Option.some.injEq, GoError.pkg.injEq, true_and] at heq
    exact hne (formatInt_injective _ _ (append_left_cancel _ _ _ heq))

/-- Witness of C7: status 418 gives the error `miniflux: status code=418`. -/
theorem execute_unexpected_status_witness :
    (request.execute (exampleLibrary (Except.ok ⟨418, ⟨"teapot"⟩⟩))
      ⟨"http://h", "u", "p"⟩ "GET" "/v1/me" none).outcome =
        Outcome.returned none (some (GoError.pkg "miniflux: status code=418")) :=
  (execute_unexpected_status String String (exampleLibrary (Except.ok ⟨418, ⟨"teapot"⟩⟩))
    ⟨"http://h", "u", "p"⟩ ⟨"http://h", "u", "p"⟩ "GET" "/v1/me" none "http://h/v1/me"
    ⟨418, ⟨"teapot"⟩⟩ (by decide) rfl rfl).1 (by decide) (by decide)

/-- C8: when the call reaches the transport and the response has status 400, `execute` returns
no body and a bad-request error, and closes the response body: if the body decodes to an
`errorResponse` with `error_message = m` the error text is `miniflux: bad request (m)`, from
which `m` can be read back; if decoding fails with an error of detail `d` the text is
`miniflux: bad request error (d)`, from which `d` can be read back; no text of the second form
equals one of the first. -/
theorem execute_bad_request (U V : Type) (lib : Library U V) (r r' : request)
    (method path : String) (data : Option (Payload V)) (u : U) (response : Response)
    (ht : r.trimEndpoint = some r') (hu : lib.urlParse (r'.endpoint ++ path) = Except.ok u)
    (hdo : lib.clientDo r'.buildClient (r'.buildRequest lib u method data).1 =
      Except.ok response)
    (hs : response.StatusCode = 400) :
    (∀ resp : errorResponse, lib.jsonDecode response.Body = Except.ok resp →
      (r.execute lib method path data).outcome =
        Outcome.returned none (some (GoError.pkg
          ("miniflux: bad request (" ++ resp.ErrorMessage ++ ")")))) ∧
    (∀ err : ForeignError, lib.jsonDecode response.Body = Except.error err →
      (r.execute lib method path data).outcome =
        Outcome.returned none (some (GoError.pkg
          ("miniflux: bad request error (" ++ err.detail ++ ")")))) ∧
    (∃ e, (r.execute lib method path data).outcome = Outcome.returned none (some e)) ∧
    (r.execute lib method path data).bodyClosed = true ∧
    (∀ m d : String, GoError.pkg ("miniflux: bad request (" ++ m ++ ")") ≠
      GoError.pkg ("miniflux: bad request error (" ++ d ++ ")")) ∧
    (∀ m₁ m₂ : String, GoError.pkg ("miniflux: bad request (" ++ m₁ ++ ")") =
      GoError.pkg ("miniflux: bad request (" ++ m₂ ++ ")") → m₁ = m₂) ∧
    (∀ d₁ d₂ : String, GoError.pkg ("miniflux: bad request error (" ++ d₁ ++ ")") =
      GoError.pkg ("miniflux: bad request error (" ++ d₂ ++ ")") → d₁ = d₂) := by
  rw [execute_response U V lib r r' method path data u response ht hu hdo,
    mapResponse_bad_request U V lib response hs]
  refine ⟨?_, ?_, ?_, ?_, ?_, ?_, ?_⟩
  · intro resp hd
    simp only [hd]
  · intro err hd
    simp only [hd]
  · cases lib.jsonDecode response.Body <;> exact ⟨_, rfl⟩
  · cases lib.jsonDecode response.Body <;> rfl
  · intro m d h
    have h' := congrArg (fun e => (GoError.Error e).data.get? 22) h
    simp [GoError.Error, String.data_append] at h'
  · intro m₁ m₂ h
    simp only [GoError.pkg.injEq] at h
    exact append_left_cancel _ _ _ (append_right_cancel _ _ _ h)
  · intro d₁ d₂ h
    simp only [GoError.pkg.injEq] at h
    exact append_left_cancel _ _ _ (append_right_cancel _ _ _ h)

/-- Witness of C8: the body `\x7b"error_message":"bad input"\x7d` with status 400 gives the
error `miniflux: bad request (bad input)`. -/
theorem execute_bad_request_witness :
    (request.execute (exampleLibrary
        (Except.ok ⟨400, ⟨"\x7b\"error_message\":\"bad input\"\x7d"⟩⟩))
      ⟨"http://h", "u", "p"⟩ "POST" "/v1/feeds" (some (Payload.value "x"))).outcome =
        Outcome.returned none (some (GoError.pkg "miniflux: bad request (bad input)")) :=
  (execute_bad_request String String
    (exampleLibrary (Except.ok ⟨400, ⟨"\x7b\"error_message\":\"bad input\"\x7d"⟩⟩))
    ⟨"http://h", "u", "p"⟩ ⟨"http://h", "u", "p"⟩ "POST" "/v1/feeds" (some (Payload.value "x"))
    "http://h/v1/feeds" ⟨400, ⟨"\x7b\"error_message\":\"bad input\"\x7d"⟩⟩
    (by decide) rfl rfl rfl).1 ⟨"bad input"⟩ rfl

/-- C9: `execute` returns a body and a `nil` error exactly when the call gets past the three
steps before the status switch and the status is below 400: the endpoint is not empty (`r'`
is the client once its final `/` is cut), the text `r'.endpoint + path` parses as a URL, and
the transport returns a response without error; the body returned is then the body of that
response. A return with a `nil` error always has a body. When the transport fails, `execute`
returns no body and the very error of the transport, which is none of the errors the status
switch produces. -/
theorem execute_success_iff (U V : Type) (lib : Library U V) (r : request)
    (method path : String) (data : Option (Payload V)) :
    (∀ body : ReadCloser,
      (r.execute lib method path data).outcome = Outcome.returned (some body) none ↔
        ∃ (r' : request) (u : U) (response : Response),
          r.trimEndpoint = some r' ∧
          lib.urlParse (r'.endpoint ++ path) = Except.ok u ∧
          lib.clientDo r'.buildClient (r'.buildRequest lib u method data).1 =
            Except.ok response ∧
          response.StatusCode < 400 ∧ body = response.Body) ∧
    (∀ b : Option ReadCloser,
      (r.execute lib method path data).outcome = Outcome.returned b none → b ≠ none) ∧
    (∀ (r' : request) (u : U) (err : ForeignError),
      r.trimEndpoint = some r' →
      lib.urlParse (r'.endpoint ++ path) = Except.ok u →
      lib.clientDo r'.buildClient (r'.buildRequest lib u method data).1 = Except.error err →
      (r.execute lib method path data).outcome =
        Outcome.returned none (some (GoError.foreign err)) ∧
      GoError.foreign err ∉ [ErrNotAuthorized, ErrForbidden, ErrServerError, ErrNotFound] ∧
      ∀ text : String, GoError.foreign err ≠ GoError.pkg text) := by
  have main : ∀ b : Option ReadCloser,
      (r.execute lib method path data).outcome = Outcome.returned b none →
        ∃ (r' : request) (u : U) (response : Response),
          r.trimEndpoint = some r' ∧
          lib.urlParse (r'.endpoint ++ path) = Except.ok u ∧
          lib.clientDo r'.buildClient (r'.buildRequest lib u method data).1 =
            Except.ok response ∧
          response.StatusCode < 400 ∧ b = some response.Body := by
    intro b hb
    cases ht : r.trimEndpoint with
    | none =>
      rw [execute_panic U V lib r method path data ht] at hb
      exact Outcome.noConfusion hb
    | some r' =>
      cases hu : lib.urlParse (r'.endpoint ++ path) with
      | error err =>
        rw [execute_parse_error U V lib r r' method path data err ht hu] at hb
        simp at hb
      | ok u =>
        cases hdo : lib.clientDo r'.buildClient (r'.buildRequest lib u method data).1 with
        | error err =>
          rw [execute_transport_error U V lib r r' method path data u err ht hu hdo] at hb
          simp at hb
        | ok response =>
          rw [execute_response U V lib r r' method path data u response ht hu hdo] at hb
          simp only at hb
          by_cases hlt : response.StatusCode < 400
          · rw [mapResponse_lt U V lib response hlt] at hb
            simp only [Outcome.returned.injEq, and_true] at hb
            exact ⟨r', u, response, rfl, hu, hdo, hlt, hb.symm⟩
          · obtain ⟨e, he⟩ := mapResponse_ge U V lib response (by omega)
            rw [he] at hb
            simp at hb
  refine ⟨?_, ?_, ?_⟩
  · intro body
    constructor
    · intro hb
      obtain ⟨r', u, response, ht, hu, hdo, hlt, hbody⟩ := main (some body) hb
      exact ⟨r', u, response, ht, hu, hdo, hlt, Option.some.inj hbody⟩
    · rintro ⟨r', u, response, ht, hu, hdo, hlt, hbody⟩
      rw [execute_response U V lib r r' method path data u response ht hu hdo,
        mapResponse_lt U V lib response hlt, hbody]
  · intro b hb
    obtain ⟨_, _, response, _, _, _, _, hbody⟩ := main b hb
    rw [hbody]
    exact Option.some_ne_none _
  · intro r' u err ht hu hdo
    rw [execute_transport_error U V lib r r' method path data u err ht hu hdo]
    refine ⟨rfl, ?_, ?_⟩
    · simp [ErrNotAuthorized, ErrForbidden, ErrServerError, ErrNotFound]
    · intro text h
      exact GoError.noConfusion h

/-- Witness of C9: the transport times out; `execute` hands the transport's error back. -/
theorem execute_success_iff_witness :
    (request.execute (exampleLibrary (Except.error ⟨"Client.Timeout exceeded"⟩))
      ⟨"http://h/", "u", "p"⟩ "GET" "/v1/me" none).outcome =
        Outcome.returned none (some (GoError.foreign ⟨"Client.Timeout exceeded"⟩)) :=
  ((execute_success_iff String String
    (exampleLibrary (Except.error ⟨"Client.Timeout exceeded"⟩))
    ⟨"http://h/", "u", "p"⟩ "GET" "/v1/me" none).2.2
    ⟨"http://h", "u", "p"⟩ "http://h/v1/me" ⟨"Client.Timeout exceeded"⟩
    (by decide) rfl rfl).1

/-- C10, as the code has it: a call of `execute` on a client with a non-empty endpoint leaves
the user name and the password as they were; the endpoint is left as it was when it has no
final `/`, and otherwise loses that one final `/`, which the call stores back into the client.
The URL text the call parses is the stored endpoint followed by the path. When the endpoint
is not `/` and does not end in `//`, a second identical call on the client as the first left
it parses the same URL text and leaves the client unchanged. -/
theorem execute_client_after (U V : Type) (lib : Library U V) (r : request)
    (method path : String) (data : Option (Payload V)) (hne : r.endpoint ≠ "") :
    (r.execute lib method path data).client.username = r.username ∧
    (r.execute lib method path data).client.password = r.password ∧
    (∀ e : String, r.endpoint = e ++ "/" →
      (r.execute lib method path data).client.endpoint = e ∧
      (r.execute lib method path data).url = some (e ++ path)) ∧
    ((∀ e : String, r.endpoint ≠ e ++ "/") →
      (r.execute lib method path data).client = r ∧
      (r.execute lib method path data).url = some (r.endpoint ++ path)) ∧
    (r.endpoint ≠ "/" → (∀ e : String, r.endpoint ≠ e ++ "//") →
      ((r.execute lib method path data).client.execute lib method path data).url =
        (r.execute lib method path data).url ∧
      ((r.execute lib method path data).client.execute lib method path data).client =
        (r.execute lib method path data).client) := by
  obtain ⟨r', ht, hun, hpw⟩ := trimEndpoint_isSome r hne
  obtain ⟨hc, hurl⟩ := execute_client_url U V lib r r' method path data ht
  rw [hc, hurl]
  refine ⟨hun, hpw, ?_, ?_, ?_⟩
  · intro e he
    rw [trimEndpoint_slash r e he] at ht
    rw [← Option.some.inj ht]
    exact ⟨rfl, rfl⟩
  · intro hns
    rw [trimEndpoint_no_slash r hne hns] at ht
    rw [← Option.some.inj ht]
    exact ⟨rfl, rfl⟩
  · intro hone htwo
    have hfix : r'.trimEndpoint = some r' := by
      by_cases h : ∃ e : String, r.endpoint = e ++ "/"
      · obtain ⟨e, he⟩ := h
        rw [trimEndpoint_slash r e he] at ht
        have hr' : r'.endpoint = e := by rw [← Option.some.inj ht]
        apply trimEndpoint_no_slash
        · rw [hr']
          intro hempty
          apply hone
          rw [he, hempty]
          rfl
        · intro e' he'
          rw [hr'] at he'
          apply htwo e'
          rw [he, he', String.append_assoc]
          rfl
      · have hns : ∀ e : String, r.endpoint ≠ e ++ "/" := fun e he => h ⟨e, he⟩
        rw [trimEndpoint_no_slash r hne hns] at ht
        rw [← Option.some.inj ht]
        exact trimEndpoint_no_slash r hne hns
    obtain ⟨hc2, hurl2⟩ := execute_client_url U V lib r' r' method path data hfix
    exact ⟨hurl2, hc2⟩

/-- Witness of C10 as amended: the endpoint `http://h/` loses its final `/`. -/
theorem execute_client_after_witness :
    (request.execute (exampleLibrary (Except.ok ⟨200, ⟨"ok"⟩⟩))
      ⟨"http://h/", "u", "p"⟩ "GET" "/v1/me" none).client.endpoint = "http://h" ∧
    (request.execute (exampleLibrary (Except.ok ⟨200, ⟨"ok"⟩⟩))
      ⟨"http://h/", "u", "p"⟩ "GET" "/v1/me" none).url = some ("http://h" ++ "/v1/me") :=
  (execute_client_after String String (exampleLibrary (Except.ok ⟨200, ⟨"ok"⟩⟩))
    ⟨"http://h/", "u", "p"⟩ "GET" "/v1/me" none (by decide)).2.2.1 "http://h" rfl

/-- C10 as stated fails: after a `GET` on the client with endpoint `http://h/` the client's
endpoint is `http://h`, not what it was before the call; and on the endpoint `http://h//` the
second of two identical calls parses another URL text than the first. -/
theorem execute_changes_endpoint :
    (⟨"http://h/", "u", "p"⟩ : request).endpoint ≠ "" ∧
    (request.execute (exampleLibrary (Except.ok ⟨200, ⟨"ok"⟩⟩))
      ⟨"http://h/", "u", "p"⟩ "GET" "/v1/me" none).client.endpoint ≠
        (⟨"http://h/", "u", "p"⟩ : request).endpoint ∧
    (request.execute (exampleLibrary (Except.ok ⟨200, ⟨"ok"⟩⟩))
      ⟨"http://h//", "u", "p"⟩ "GET" "/v1/me" none).url = some "http://h//v1/me" ∧
    (request.execute (exampleLibrary (Except.ok ⟨200, ⟨"ok"⟩⟩))
      (request.execute (exampleLibrary (Except.ok ⟨200, ⟨"ok"⟩⟩))
        ⟨"http://h//", "u", "p"⟩ "GET" "/v1/me" none).client "GET" "/v1/me" none).url =
      some "http://h/v1/me" := by
  decide

end Miniflux.Client
